import Mathlib

/-!
Verification of the PDF quality checker's measurement / issue-aggregation
engine (a shallow embedding of `pdf_analyzer.py`, `print_quality_checker.py`
and `batch_processor.py`).

Real-valued quantities (points, millimetres, DPI) are embedded as `ℚ`.
Python dicts holding heterogeneous finding records are embedded as a single
`Finding` structure with optional fields.  Content streams are embedded as
lists of whitespace-separated tokens (see the overprint section).
-/

namespace PdfCheck

/-- Substring test on lists of characters: `needle` occurs contiguously in the
haystack.  Mirrors Python's `needle in haystack` for `str`. -/
def containsSubAux (needle : List Char) : List Char → Bool
  | [] => needle.isEmpty
  | c :: rest => needle.isPrefixOf (c :: rest) || containsSubAux needle rest

/-- Python's `needle in haystack` on strings. -/
def containsSub (hay needle : String) : Bool :=
  containsSubAux needle.toList hay.toList

/-- Python's `round` on a rational: round half to even (banker's rounding). -/
def pyRound (q : ℚ) : ℤ :=
  let f : ℤ := ⌊q⌋
  let frac : ℚ := q - f
  if frac < 1/2 then f
  else if 1/2 < frac then f + 1
  else if f % 2 = 0 then f else f + 1

/-- Unified finding record: embeds the heterogeneous issue dicts appended to
`analysis_result['issues']` and to the print-quality checker's
`self.issues` / `self.warnings`.  Fields that a given issue kind does not
set keep their defaults (matching absent dict keys). -/
structure Finding where
  ftype : String
  severity : String
  pages : List Nat := []
  rule : String := ""
  minDpi : Option ℚ := none
  deriving DecidableEq, Repr

/-- One entry of a preflight profile result bucket
(`{rule_name, expected, found, message}`). -/
structure PreflightItem where
  rule_name : String
  message : String := ""
  expected : String := ""
  found : String := ""
  deriving DecidableEq, Repr

/-- The three result buckets of `current_profile.check` that
`PDFAnalyzer._add_preflight_issues` reads (`failed`, `warnings`, `info`). -/
structure PreflightResult where
  failed : List PreflightItem
  warnings : List PreflightItem
  info : List PreflightItem
  deriving DecidableEq, Repr

/-- Python's `str.lower()`, character-wise.  `Char.toLower` performs the
ASCII case mapping, which agrees with Python on every string these checks
compare against (the patterns "bleed", "(embedded)", "(not embedded)" and
the rule names are ASCII). -/
def strToLower (s : String) : String :=
  ⟨s.data.map Char.toLower⟩

/-- The bleed-name test used at `pdf_analyzer.py:803` and `:826`:
`'bleed' in rule_name.lower()`. -/
def ruleNameHasBleed (s : String) : Bool :=
  containsSub (strToLower s) "bleed"

/-- Embedding of `PDFAnalyzer._add_preflight_issues`
(`pdf_analyzer.py:793-834`): appends preflight findings to the issue list.
The `failed` bucket is filtered by `'bleed' not in rule_name.lower()`, the
`warnings` bucket is appended unconditionally, and the `info` bucket is
filtered like `failed`. -/
def addPreflightIssues (issues : List Finding) (pr : PreflightResult) :
    List Finding :=
  let issues := issues ++
    ((pr.failed.filter (fun f => !ruleNameHasBleed f.rule_name)).map
      (fun f => { ftype := "preflight_failed", severity := "error",
                  rule := f.rule_name }))
  let issues := issues ++
    (pr.warnings.map
      (fun w => { ftype := "preflight_warning", severity := "warning",
                  rule := w.rule_name }))
  issues ++
    ((pr.info.filter (fun i => !ruleNameHasBleed i.rule_name)).map
      (fun i => { ftype := "preflight_info", severity := "info",
                  rule := i.rule_name }))

/-- A PDF rectangle (left, bottom, right, top) in points. -/
structure Box where
  l : ℚ
  b : ℚ
  r : ℚ
  t : ℚ
  deriving DecidableEq, Repr

/-- Raw per-page box dictionary entries as `_analyze_pages` reads them
(`'/MediaBox' in page`, etc.), plus the `/Rotate` value (`int(page.get('/Rotate', 0))`). -/
structure PageBoxes where
  mediaBox : Option Box := none
  cropBox : Option Box := none
  bleedBox : Option Box := none
  trimBox : Option Box := none
  rotate : ℤ := 0
  deriving DecidableEq, Repr

/-- Embedding of `utils.points_to_mm`: multiply by 25.4 / 72. -/
def pointsToMm (p : ℚ) : ℚ := p * 254 / 720

/-- The page record built by `PDFAnalyzer._analyze_pages`
(presentational fields such as `size_formatted` and `paper_size` are omitted;
no claim depends on them). -/
structure PageInfo where
  page_number : ℕ
  width_pt : ℚ
  height_pt : ℚ
  width_mm : ℚ
  height_mm : ℚ
  display_width_mm : ℚ
  display_height_mm : ℚ
  rotation : ℤ
  has_bleed : Bool := false
  bleed_left : ℚ := 0
  bleed_bottom : ℚ := 0
  bleed_right : ℚ := 0
  bleed_top : ℚ := 0
  min_bleed : ℚ := 0
  deriving DecidableEq, Repr

/-- Embedding of one iteration of the loop in `PDFAnalyzer._analyze_pages`
(`pdf_analyzer.py:210-291`).  Box fallbacks follow the source exactly:
CropBox defaults to MediaBox, BleedBox and TrimBox default to CropBox.
Returns `none` when the page has no MediaBox (the source's `if mediabox:`
test fails and the page is not appended). -/
def analyzePage (pageNum : ℕ) (page : PageBoxes) : Option PageInfo :=
  let mediabox := page.mediaBox
  let cropbox := page.cropBox.orElse (fun _ => mediabox)
  let bleedbox := page.bleedBox.orElse (fun _ => cropbox)
  let trimbox := page.trimBox.orElse (fun _ => cropbox)
  match mediabox with
  | none => none
  | some mb =>
    let width := mb.r - mb.l
    let height := mb.t - mb.b
    let width_mm := pointsToMm width
    let height_mm := pointsToMm height
    let rotation := page.rotate
    let dw := if rotation = 90 ∨ rotation = 270 then height_mm else width_mm
    let dh := if rotation = 90 ∨ rotation = 270 then width_mm else height_mm
    let base : PageInfo :=
      { page_number := pageNum, width_pt := width, height_pt := height,
        width_mm := width_mm, height_mm := height_mm,
        display_width_mm := dw, display_height_mm := dh, rotation := rotation }
    match trimbox, bleedbox with
    | some tb, some bb =>
      if tb ≠ bb then
        let bl := pointsToMm (tb.l - bb.l)
        let bbot := pointsToMm (tb.b - bb.b)
        let br := pointsToMm (bb.r - tb.r)
        let bt := pointsToMm (bb.t - tb.t)
        some { base with
               has_bleed := true,
               bleed_left := bl, bleed_bottom := bbot,
               bleed_right := br, bleed_top := bt,
               min_bleed := min (min bl bbot) (min br bt) }
      else some base
    | _, _ => some base

/-- The enumeration loop of `_analyze_pages`: pages are numbered from 1 and a
page without MediaBox contributes nothing to `pages_info`. -/
def analyzePagesFrom : ℕ → List PageBoxes → List PageInfo
  | _, [] => []
  | n, p :: rest =>
    match analyzePage n p with
    | some pi => pi :: analyzePagesFrom (n + 1) rest
    | none => analyzePagesFrom (n + 1) rest

/-- Embedding of `PDFAnalyzer._analyze_pages`. -/
def analyzePages (ps : List PageBoxes) : List PageInfo :=
  analyzePagesFrom 1 ps

/-- The grouping key of `_check_issues` step 1:
`(round(display_width_mm), round(display_height_mm))`. -/
def sizeKey (p : PageInfo) : ℤ × ℤ :=
  (pyRound p.display_width_mm, pyRound p.display_height_mm)

/-- First-occurrence deduplication of a key list (Python dict keys appear in
insertion order). -/
def uniqKeys : List (ℤ × ℤ) → List (ℤ × ℤ)
  | [] => []
  | k :: rest => k :: (uniqKeys rest).filter (fun x => x ≠ k)

/-- Embedding of the `size_count` dict built in `_check_issues`
(`pdf_analyzer.py:596-607`): keys in first-occurrence order, each carrying
the document-order list of pages with that rounded display size. -/
def groupPages (pages : List PageInfo) : List ((ℤ × ℤ) × List PageInfo) :=
  (uniqKeys (pages.map sizeKey)).map
    (fun k => (k, pages.filter (fun p => sizeKey p == k)))

/-- The running-maximum scan of Python's `max(items, key=...)`: the current
best is replaced only by a strictly larger candidate, so the first maximal
element wins ties. -/
def pickMaxAux (best : (ℤ × ℤ) × List PageInfo) :
    List ((ℤ × ℤ) × List PageInfo) → (ℤ × ℤ) × List PageInfo
  | [] => best
  | g :: rest =>
    if best.2.length < g.2.length then pickMaxAux g rest else pickMaxAux best rest

/-- Embedding of `max(size_count.items(), key=lambda x: len(x[1]['pages']))`
(`pdf_analyzer.py:610`). -/
def pickMax : List ((ℤ × ℤ) × List PageInfo) → Option ((ℤ × ℤ) × List PageInfo)
  | [] => none
  | g :: rest => some (pickMaxAux g rest)

/-- The `inconsistent_pages_detail` collection of `_check_issues`
(`pdf_analyzer.py:615-624`): all pages of every non-baseline group, in group
order. -/
def inconsistentPages (pages : List PageInfo) : List PageInfo :=
  match pickMax (groupPages pages) with
  | none => []
  | some common =>
    (((groupPages pages).filter (fun g => g.1 ≠ common.1)).map (fun g => g.2)).flatten

/-- Embedding of `_check_issues` step 1 (`pdf_analyzer.py:593-639`): the single
`page_size_inconsistent` finding, produced only when some page deviates from
the baseline group. -/
def pageSizeFinding (pages : List PageInfo) : Option Finding :=
  if pages.isEmpty then none
  else
    let inconsistent := inconsistentPages pages
    if inconsistent.isEmpty then none
    else some { ftype := "page_size_inconsistent", severity := "warning",
                pages := inconsistent.map (fun p => p.page_number) }

/-- The 14 standard PostScript font names listed in `_analyze_fonts`
(`pdf_analyzer.py:364-369`). -/
def standardFonts : List String :=
  [ "Times-Roman", "Times-Bold", "Times-Italic", "Times-BoldItalic",
    "Helvetica", "Helvetica-Bold", "Helvetica-Oblique", "Helvetica-BoldOblique",
    "Courier", "Courier-Bold", "Courier-Oblique", "Courier-BoldOblique",
    "Symbol", "ZapfDingbats" ]

/-- One PyMuPDF font tuple as `_analyze_fonts` reads it:
`ext = font_data[1]`, `basename = font_data[3]`, `fontname = font_data[4]`. -/
structure FitzFont where
  ext : String
  basename : String
  fontname : String
  deriving DecidableEq, Repr

/-- The fields of the `font_info` dict relevant to the claims. -/
structure FontInfo where
  embedded : Bool
  subset : Bool
  is_standard : Bool
  base_font : String
  deriving DecidableEq, Repr

/-- The explicit embedded name markers checked at `pdf_analyzer.py:358`
(`'(포함됨)' in fontname or '(embedded)' in fontname.lower()`). -/
def embMarker (fontname : String) : Bool :=
  containsSub fontname "(포함됨)" || containsSub (strToLower fontname) "(embedded)"

/-- The explicit not-embedded name markers checked at
`pdf_analyzer.py:360` (`'(포함 안 됨)' in fontname or
'(not embedded)' in fontname.lower()`). -/
def notEmbMarker (fontname : String) : Bool :=
  containsSub fontname "(포함 안 됨)" || containsSub (strToLower fontname) "(not embedded)"

/-- Embedding of the per-font body of `PDFAnalyzer._analyze_fonts`
(`pdf_analyzer.py:341-389`).  `hasFontFileStream` abstracts the pikepdf
cross-check: whether some resource font whose BaseFont matches `basename`
has a FontDescriptor containing a FontFile / FontFile2 / FontFile3 stream.
The update steps follow the source order: raw signal (`ext != ""`), subset
override, embedded / not-embedded name markers, standard-14 override, and
finally the font-file cross-check, which only ever raises `embedded`. -/
def buildFontInfo (fd : FitzFont) (hasFontFileStream : Bool) : FontInfo :=
  let embedded := fd.ext != ""
  let subset := containsSub fd.basename "+"
  let embedded := if subset then true else embedded
  let embedded :=
    if embMarker fd.fontname then true
    else if notEmbMarker fd.fontname then false
    else embedded
  let is_standard := standardFonts.contains fd.basename
  let embedded := if is_standard then true else embedded
  let embedded := if hasFontFileStream && !embedded then true else embedded
  { embedded := embedded, subset := subset, is_standard := is_standard,
    base_font := fd.basename }

/-- The three image-resolution thresholds read from the configuration. -/
structure DpiConfig where
  minImageDpi : ℚ
  warningImageDpi : ℚ
  optimalImageDpi : ℚ
  deriving DecidableEq, Repr

/-- Modelled from the spec: `config.py` is not under `src/`; the spec gives
the defaults of `MIN_IMAGE_DPI` / `WARNING_IMAGE_DPI` / `OPTIMAL_IMAGE_DPI`
as 72 / 150 / 300. -/
def defaultDpiConfig : DpiConfig :=
  { minImageDpi := 72, warningImageDpi := 150, optimalImageDpi := 300 }

/-- One raw image occurrence: pixel dimensions (`pix.width` / `pix.height`)
and placed dimensions in points (`img[2]` / `img[3]`). -/
structure RawImage where
  page : ℕ
  pixWidth : ℚ
  pixHeight : ℚ
  placedWidthPt : ℚ
  placedHeightPt : ℚ
  deriving DecidableEq, Repr

/-- The fields of the per-image `img_data` dict relevant to the claims. -/
structure ImgData where
  page : ℕ
  dpi : ℚ
  resolution_category : String
  deriving DecidableEq, Repr

/-- The threshold cascade of `_analyze_images` (`pdf_analyzer.py:547-559`):
strict `<` against the three thresholds. -/
def categorizeDpi (cfg : DpiConfig) (d : ℚ) : String :=
  if d < cfg.minImageDpi then "critical"
  else if d < cfg.warningImageDpi then "warning"
  else if d < cfg.optimalImageDpi then "acceptable"
  else "optimal"

/-- Embedding of the per-image body of `PDFAnalyzer._analyze_images`
(`pdf_analyzer.py:526-560`): `dpi` and `resolution_category` start at `0` /
`''` and are only set when both placed dimensions are positive
(`if img[2] > 0 and img[3] > 0`). -/
def analyzeImage (cfg : DpiConfig) (img : RawImage) : ImgData :=
  if 0 < img.placedWidthPt ∧ 0 < img.placedHeightPt then
    let d := min (img.pixWidth / (img.placedWidthPt / 72))
                 (img.pixHeight / (img.placedHeightPt / 72))
    { page := img.page, dpi := d, resolution_category := categorizeDpi cfg d }
  else
    { page := img.page, dpi := 0, resolution_category := "" }

/-- The aggregate image record of `_analyze_images`.
`low_resolution_count` is incremented exactly once per image classified
`'critical'`, so it equals the count of such images. -/
structure ImagesInfo where
  images : List ImgData
  total_count : ℕ
  low_resolution_count : ℕ
  deriving DecidableEq, Repr

/-- Embedding of `PDFAnalyzer._analyze_images` over the raw image list. -/
def analyzeImages (cfg : DpiConfig) (imgs : List RawImage) : ImagesInfo :=
  let datas := imgs.map (analyzeImage cfg)
  { images := datas,
    total_count := imgs.length,
    low_resolution_count :=
      (datas.filter (fun d => d.resolution_category == "critical")).length }

/-- The `low_res_images` filter of `_check_issues` step 5
(`pdf_analyzer.py:709-710`): `img['dpi'] > 0 and img['dpi'] < MIN_IMAGE_DPI`. -/
def lowResImages (cfg : DpiConfig) (info : ImagesInfo) : List ImgData :=
  info.images.filter
    (fun img => decide (0 < img.dpi) && decide (img.dpi < cfg.minImageDpi))

/-- Insertion into a sorted list of page numbers. -/
def insertSorted (n : ℕ) : List ℕ → List ℕ
  | [] => [n]
  | m :: rest => if n ≤ m then n :: m :: rest else m :: insertSorted n rest

/-- Python's `sorted(list(set(l)))` on page-number lists. -/
def sortedDedup (l : List ℕ) : List ℕ :=
  l.dedup.foldr insertSorted []

/-- The running-minimum fold of `_check_issues` step 5: `min_dpi` starts at
`float('inf')` (embedded as `none`) and is lowered by every strictly smaller
dpi. -/
def listMinQ (l : List ℚ) : Option ℚ :=
  l.foldl
    (fun m x =>
      match m with
      | none => some x
      | some v => if x < v then some x else some v)
    none

/-- Embedding of `_check_issues` step 5 (`pdf_analyzer.py:706-727`): the
`low_resolution_image` finding, emitted only when `low_resolution_count > 0`. -/
def lowResFinding (cfg : DpiConfig) (info : ImagesInfo) : Option Finding :=
  if 0 < info.low_resolution_count then
    let low := lowResImages cfg info
    some { ftype := "low_resolution_image", severity := "error",
           pages := sortedDedup (low.map (fun i => i.page)),
           minDpi := listMinQ (low.map (fun i => i.dpi)) }
  else none

/-- Adjacent-pair search: some token equal to `a` immediately followed by a
token equal to `b`.  This is the token-level reading of the byte regexes
`\s1\s+OP\s` (and the lowercase / OPM variants) of `check_overprint`:
content streams are embedded as lists of maximal whitespace-separated
tokens, so one-or-more whitespace between operands becomes token adjacency. -/
def adjPair (a b : String) : List String → Bool
  | [] => false
  | [_] => false
  | x :: y :: rest => (x == a && y == b) || adjPair a b (y :: rest)

/-- Token-level reading of `re.search(rb'<fill tokens>.*?1\s+OP', content)`
(`print_quality_checker.py:181-189`): the fill tokens occur consecutively,
and somewhere in the remainder the uppercase pair `1 OP` occurs.  (The byte
regexes do not let `.*?` cross a newline; the token embedding treats
newlines like any whitespace — no claim distinguishes the two.) -/
def fillThenOP (fill : List String) : List String → Bool
  | [] => false
  | c :: rest =>
    (fill.isPrefixOf (c :: rest) && adjPair "1" "OP" ((c :: rest).drop fill.length))
      || fillThenOP fill rest

/-- One page as `check_overprint` sees it: its content-stream tokens, and the
result of the pikepdf ExtGState scan (`(/OP or /op set) and /OPM == 1`,
`print_quality_checker.py:196-218`) folded into one flag. -/
structure OverprintPage where
  content : List String
  extGStateOverprint : Bool := false
  deriving DecidableEq, Repr

/-- The overprint-detection test of `check_overprint`
(`print_quality_checker.py:170-173`): `\s1\s+OP\s`, `\s1\s+op\s` or
`\s1\s+OPM\s`. -/
def tokenDetect (c : List String) : Bool :=
  adjPair "1" "OP" c || adjPair "1" "op" c || adjPair "1" "OPM" c

/-- The white-overprint classification regexes
(`0\s+0\s+0\s+0\s+k.*?1\s+OP`, lowercase and uppercase `k`). -/
def whiteMatch (c : List String) : Bool :=
  fillThenOP [ "0", "0", "0", "0", "k" ] c || fillThenOP [ "0", "0", "0", "0", "K" ] c

/-- The K-only-overprint classification regexes
(`0\s+0\s+0\s+1\s+k.*?1\s+OP`, lowercase and uppercase `k`). -/
def kOnlyMatch (c : List String) : Bool :=
  fillThenOP [ "0", "0", "0", "1", "k" ] c || fillThenOP [ "0", "0", "0", "1", "K" ] c

/-- Pages paired with their 1-based numbers, starting from `n`
(`enumerate(doc, 1)`). -/
def enumPagesFrom (n : ℕ) : List OverprintPage → List (ℕ × OverprintPage)
  | [] => []
  | p :: rest => (n, p) :: enumPagesFrom (n + 1) rest

/-- Pages (1-based) paired with their data. -/
def enumPages (pages : List OverprintPage) : List (ℕ × OverprintPage) :=
  enumPagesFrom 1 pages

/-- `white_overprint_pages` after the final `sorted(list(set(...)))`:
classification runs only on pages whose content matched the detection
regexes.  Page numbers are generated in increasing order and at most once
each, so the sort / dedup of the source is the identity here. -/
def whitePages (pages : List OverprintPage) : List ℕ :=
  (enumPages pages).filterMap
    (fun e => if tokenDetect e.2.content && whiteMatch e.2.content then some e.1 else none)

/-- `k_only_overprint_pages`: the `elif` branch, reached only when the white
regexes did not match. -/
def kOnlyPages (pages : List OverprintPage) : List ℕ :=
  (enumPages pages).filterMap
    (fun e =>
      if tokenDetect e.2.content && !whiteMatch e.2.content && kOnlyMatch e.2.content
      then some e.1 else none)

/-- `pages_with_overprint` after sort / dedup: pages detected through the
content regexes plus pages detected only through ExtGState. -/
def allOverprintPages (pages : List OverprintPage) : List ℕ :=
  (enumPages pages).filterMap
    (fun e => if tokenDetect e.2.content || e.2.extGStateOverprint then some e.1 else none)

/-- `other_overprint_pages` (`print_quality_checker.py:246-248`): detected
pages in neither the white nor the K-only list. -/
def otherOverprintPages (pages : List OverprintPage) : List ℕ :=
  (allOverprintPages pages).filter
    (fun p => !(whitePages pages).contains p && !(kOnlyPages pages).contains p)

/-- Embedding of the finding emission of `check_overprint`
(`print_quality_checker.py:226-257`): returns the pair
(appended `self.issues`, appended `self.warnings`). -/
def overprintFindings (pages : List OverprintPage) :
    List Finding × List Finding :=
  let white := whitePages pages
  let kOnly := kOnlyPages pages
  let other := otherOverprintPages pages
  ( (if !white.isEmpty then
      [ { ftype := "white_overprint_detected", severity := "error", pages := white } ]
     else [])
  , (if !kOnly.isEmpty then
      [ { ftype := "k_overprint_detected", severity := "info", pages := kOnly } ]
     else []) ++
    (if !other.isEmpty then
      [ { ftype := "overprint_detected", severity := "warning", pages := other } ]
     else []) )

/-- The claim's (and the spec's §4.2) reading of "white overprint": a
`0 0 0 0 k/K` fill preceding *the overprint operator*, where the operator is
any of `1 OP` / `1 op` / `1 OPM`.  This follows the spec's words, for
comparison against the source's `whiteMatch` (which only looks for the
uppercase `1 OP` after the fill). -/
def specFillThenOverprintOp (fill : List String) : List String → Bool
  | [] => false
  | c :: rest =>
    (fill.isPrefixOf (c :: rest) && tokenDetect ((c :: rest).drop fill.length))
      || specFillThenOverprintOp fill rest

/-- Spec-side white-overprint predicate (both cases of `k`). -/
def specWhiteOverprint (c : List String) : Bool :=
  specFillThenOverprintOp [ "0", "0", "0", "0", "k" ] c ||
    specFillThenOverprintOp [ "0", "0", "0", "0", "K" ] c

/-- Modelled from the spec: `config.py` is not under `src/`; the spec gives
the default of `STANDARD_BLEED_SIZE` (`standard_bleed_size_mm`) as 3.0 mm. -/
def STANDARD_BLEED_SIZE : ℚ := 3

/-- The `pages_without_bleed` collection of
`PrintQualityChecker.process_bleed_info` (`print_quality_checker.py:287-312`):
a page with bleed contributes when `min_bleed < STANDARD_BLEED_SIZE`; a page
without bleed always contributes, with `current_bleed = 0`. -/
def pagesWithoutBleed (std : ℚ) (pages : List PageInfo) : List (ℕ × ℚ) :=
  pages.filterMap
    (fun p =>
      if p.has_bleed then
        if p.min_bleed < std then some (p.page_number, p.min_bleed) else none
      else some (p.page_number, 0))

/-- Embedding of the finding emission of `process_bleed_info`
(`print_quality_checker.py:314-322`): at most one `insufficient_bleed`
finding of severity `'info'`, listing every page that lacks proper bleed.
(`has_proper_bleed` is exactly `pages_without_bleed = []`.) -/
def processBleedFindings (std : ℚ) (pages : List PageInfo) : List Finding :=
  let without := pagesWithoutBleed std pages
  if without.isEmpty then []
  else [ { ftype := "insufficient_bleed", severity := "info",
           pages := without.map (fun e => e.1) } ]

/-- The mutable per-checker state of `PrintQualityChecker`: `self.issues` and
`self.warnings`, initialised to `[]` in `__init__` and only ever appended to
(never cleared) by the check methods. -/
structure CheckerState where
  issues : List Finding := []
  warnings : List Finding := []
  deriving DecidableEq, Repr

/-- The `Config.CHECK_OPTIONS` switches read by `check_all`, with the
`.get(key, default)` fallbacks of `print_quality_checker.py:37-43`. -/
structure CheckOptions where
  transparency : Bool := false
  overprint : Bool := true
  bleed : Bool := true
  spot_colors : Bool := true
  image_compression : Bool := true
  minimum_text : Bool := true
  deriving DecidableEq, Repr

/-- The document signals the print-quality checks consume.  Overprint content
and bleed geometry are embedded in full; the remaining four checks
(transparency, spot colors, compression, text size) are embedded at signal
level — each appends one aggregate warning when its signal list is
non-empty, exactly as the source does — since no claim depends on how those
signals are extracted from the document. -/
structure PQDoc where
  opPages : List OverprintPage := []
  transparencyPages : List ℕ := []
  spotColorNames : List String := []
  lowQualityImagePages : List ℕ := []
  smallTextPages : List ℕ := []
  deriving DecidableEq, Repr

/-- `check_transparency` (`print_quality_checker.py:115-123`): one aggregate
warning when transparency was found. -/
def checkTransparency (doc : PQDoc) (st : CheckerState) : CheckerState :=
  if !doc.transparencyPages.isEmpty then
    { st with warnings := st.warnings ++
        [ { ftype := "transparency_detected", severity := "warning",
            pages := doc.transparencyPages } ] }
  else st

/-- `check_overprint`: appends its findings to `self.issues` / `self.warnings`. -/
def checkOverprintState (doc : PQDoc) (st : CheckerState) : CheckerState :=
  let fs := overprintFindings doc.opPages
  { st with issues := st.issues ++ fs.1, warnings := st.warnings ++ fs.2 }

/-- `process_bleed_info`: appends its finding to `self.warnings`. -/
def processBleedState (std : ℚ) (pagesInfo : List PageInfo) (st : CheckerState) :
    CheckerState :=
  { st with warnings := st.warnings ++ processBleedFindings std pagesInfo }

/-- `check_spot_color_usage` (`print_quality_checker.py:373-388`): one
aggregate info-severity warning when spot colors were found. -/
def checkSpotColors (doc : PQDoc) (st : CheckerState) : CheckerState :=
  if !doc.spotColorNames.isEmpty then
    { st with warnings := st.warnings ++
        [ { ftype := "spot_colors_used", severity := "info" } ] }
  else st

/-- `check_image_compression` (`print_quality_checker.py:465-472`): one
aggregate warning when over-compressed images were found. -/
def checkImageCompression (doc : PQDoc) (st : CheckerState) : CheckerState :=
  if !doc.lowQualityImagePages.isEmpty then
    { st with warnings := st.warnings ++
        [ { ftype := "high_compression_detected", severity := "warning" } ] }
  else st

/-- `check_minimum_text_size` (`print_quality_checker.py:535-543`): one
aggregate warning when sub-4pt text was found. -/
def checkMinimumTextSize (doc : PQDoc) (st : CheckerState) : CheckerState :=
  if !doc.smallTextPages.isEmpty then
    { st with warnings := st.warnings ++
        [ { ftype := "small_text_detected", severity := "warning",
            pages := doc.smallTextPages } ] }
  else st

/-- Embedding of `PrintQualityChecker.check_all`
(`print_quality_checker.py:26-48`): runs each enabled check in source order
against the shared mutable state, then returns the state — the result dict's
`'issues'` / `'warnings'` entries are references to `self.issues` /
`self.warnings`, so the returned findings are the full accumulated lists. -/
def checkAll (opts : CheckOptions) (std : ℚ) (doc : PQDoc)
    (pagesInfo : List PageInfo) (st : CheckerState) : CheckerState :=
  let st := if opts.transparency then checkTransparency doc st else st
  let st := if opts.overprint then checkOverprintState doc st else st
  let st := if opts.bleed then processBleedState std pagesInfo st else st
  let st := if opts.spot_colors then checkSpotColors doc st else st
  let st := if opts.image_compression then checkImageCompression doc st else st
  let st := if opts.minimum_text then checkMinimumTextSize doc st else st
  st

/-- The print-quality portion of one `PDFAnalyzer.analyze` run
(`pdf_analyzer.py:101-116`): `check_all` runs against the analyzer's
long-lived `self.print_quality_checker` state, and the result's `issues`
then `warnings` are appended to the (fresh, per-run) local issue list.
Returns the checker state after the run and the findings this run merged. -/
def printQualityRun (opts : CheckOptions) (std : ℚ) (doc : PQDoc)
    (pagesInfo : List PageInfo) (st : CheckerState) :
    CheckerState × List Finding :=
  let st := checkAll opts std doc pagesInfo st
  (st, st.issues ++ st.warnings)

/-- One batch job as `_process_single_file` receives it. -/
structure JobInfo where
  fileId : String
  fileName : String
  deriving DecidableEq, Repr

/-- Everything inside the `try` of `BatchProcessor._process_single_file`
that can raise, collapsed to its outcome: Python exceptions are embedded as
`failure` values.  The `analyze` call's own error dict is re-raised by
`if 'error' in result: raise Exception(result['error'])`
(`batch_processor.py:255-256`), so it reaches this boundary as a `failure`
carrying the analyzer's error string. -/
inductive PipelineOutcome where
  | success (pageCount : ℕ)
  | failure (exnMsg : String)
  deriving DecidableEq, Repr

/-- The result record pushed to `result_queue`. -/
structure ResultRecord where
  rtype : String
  fileId : String
  file : String
  error : String := ""
  pages : ℕ := 0
  deriving DecidableEq, Repr

/-- Embedding of `BatchProcessor._process_single_file`
(`batch_processor.py:222-437`): the whole per-file body is wrapped in
`try ... except Exception`, so the function always produces exactly one
result record — a `'complete'` record on success, and on any exception an
`'error'` record whose message comes from the error handler's
classification (`classify`, the composition of
`UserFriendlyErrorHandler.handle_error` and `get_user_message`;
`error_handler.py` is not under `src/`, so the classifier is kept abstract).
Totality of this definition is the embedded form of "the exception never
propagates out of the per-file call". -/
def processSingleFile (classify : String → String) (job : JobInfo)
    (outcome : PipelineOutcome) : ResultRecord :=
  match outcome with
  | .success pc =>
    { rtype := "complete", fileId := job.fileId, file := job.fileName, pages := pc }
  | .failure e =>
    { rtype := "error", fileId := job.fileId, file := job.fileName,
      error := classify e }

/-- The worker loop of `BatchProcessor._worker_thread` restricted to one
worker draining its share of the queue: each dequeued file is handed to
`_process_single_file`, which cannot raise, so every job yields exactly one
result record and processing of subsequent files is unaffected. -/
def workerResults (classify : String → String)
    (jobs : List (JobInfo × PipelineOutcome)) : List ResultRecord :=
  jobs.map (fun jo => processSingleFile classify jo.1 jo.2)

/-! Concrete fixtures used by counterexamples and witnesses. -/

/-- Inverse of `pointsToMm`, used to build pages of a given mm size. -/
def mmToPt (mm : ℚ) : ℚ := mm * 720 / 254

/-- A page whose MediaBox realises the given display size in mm. -/
def pageOfSizeMm (w h : ℚ) (rot : ℤ) : PageBoxes :=
  { mediaBox := some { l := 0, b := 0, r := mmToPt w, t := mmToPt h },
    rotate := rot }

/-- The `insufficient_bleed` finding for a one-page document without bleed. -/
def exBleedFinding : Finding :=
  { ftype := "insufficient_bleed", severity := "info", pages := [1] }

/-- The page record `_analyze_pages` produces for a single A4 page with no
bleed boxes (all bleed fields keep their defaults). -/
def exNoBleedPageInfo : PageInfo :=
  { page_number := 1, width_pt := 595, height_pt := 842, width_mm := 210,
    height_mm := 297, display_width_mm := 210, display_height_mm := 297,
    rotation := 0 }

/-! Helper lemmas (shared). -/

/-- Case analysis of membership in the merged issue list: a merged finding
either was already present, or is a warning-bucket finding, or is a
failed / info-bucket finding whose rule name passed the bleed filter. -/
theorem addPreflightIssues_cases (issues : List Finding) (pr : PreflightResult)
    (f : Finding) (hf : f ∈ addPreflightIssues issues pr) :
    f ∈ issues ∨
    (f.ftype = "preflight_warning" ∧ f.severity = "warning" ∧
      ∃ w ∈ pr.warnings, f.rule = w.rule_name) ∨
    (ruleNameHasBleed f.rule = false ∧ f.ftype = "preflight_failed" ∧
      f.severity = "error") ∨
    (ruleNameHasBleed f.rule = false ∧ f.ftype = "preflight_info" ∧
      f.severity = "info") := by
  unfold addPreflightIssues at hf
  simp only [List.mem_append, List.mem_map, List.mem_filter,
    Bool.not_eq_true'] at hf
  rcases hf with ((h | ⟨x, ⟨hx, hb⟩, rfl⟩) | ⟨w, hw, rfl⟩) | ⟨i, ⟨hi, hb⟩, rfl⟩
  · exact Or.inl h
  · exact Or.inr (Or.inr (Or.inl ⟨hb, rfl, rfl⟩))
  · exact Or.inr (Or.inl ⟨rfl, rfl, w, hw, rfl⟩)
  · exact Or.inr (Or.inr (Or.inr ⟨hb, rfl, rfl⟩))

/-- A page is produced by `analyzePage` exactly when it has a MediaBox. -/
theorem analyzePage_isSome (n : ℕ) (p : PageBoxes) :
    (analyzePage n p).isSome = p.mediaBox.isSome := by
  unfold analyzePage
  cases hm : p.mediaBox with
  | none => simp
  | some mb =>
    simp only [Option.isSome_some]
    cases p.trimBox.orElse fun _ => p.cropBox.orElse fun _ => some mb with
    | none => rfl
    | some tb =>
      cases p.bleedBox.orElse fun _ => p.cropBox.orElse fun _ => some mb with
      | none => rfl
      | some bb =>
        dsimp only
        split <;> rfl

/-- `_analyze_pages` keeps exactly the MediaBox-bearing pages. -/
theorem analyzePagesFrom_length (n : ℕ) (ps : List PageBoxes) :
    (analyzePagesFrom n ps).length =
      (ps.filter (fun p => p.mediaBox.isSome)).length := by
  induction ps generalizing n with
  | nil => rfl
  | cons p rest ih =>
    unfold analyzePagesFrom
    cases hp : analyzePage n p with
    | none =>
      have hm : p.mediaBox.isSome = false := by
        rw [← analyzePage_isSome n p, hp]; rfl
      simp [List.filter_cons, hm, ih]
    | some pi =>
      have hm : p.mediaBox.isSome = true := by
        rw [← analyzePage_isSome n p, hp]; rfl
      simp [List.filter_cons, hm, ih]

/-! Claim C1. -/

/-- C1: the claim states that running the full measurement pipeline twice on
the same unmodified file with the same settings and the same analyzer
instance yields identical finding sets, with no accumulation.  The code
violates this: `PrintQualityChecker.__init__` creates `self.issues` /
`self.warnings` once, `check_all` only ever appends to them, and
`PDFAnalyzer.analyze` reuses the single `self.print_quality_checker` across
calls, so the second run's merged findings contain the first run's findings
again.  Failing input: default check options, an empty print-quality
document, and a single A4 page with no bleed boxes — the first run merges
one `insufficient_bleed` finding, the second run merges it twice. -/
theorem c1_second_run_accumulates_findings :
    (printQualityRun {} STANDARD_BLEED_SIZE {}
        [ exNoBleedPageInfo ] {}).2 = [ exBleedFinding ] ∧
    (printQualityRun {} STANDARD_BLEED_SIZE {}
        [ exNoBleedPageInfo ]
        (printQualityRun {} STANDARD_BLEED_SIZE {}
          [ exNoBleedPageInfo ] {}).1).2 =
      [ exBleedFinding, exBleedFinding ] := by
  constructor <;> rfl

/-! Claim C2. -/

/-- C2 counterexample: the claim states that no merged issue from any of the
failed / warnings / info buckets has a rule name containing "bleed".  But
`_add_preflight_issues` only applies the bleed filter to the `failed` and
`info` buckets; a profile result whose `warnings` bucket carries a rule
named "bleed_check" is merged unfiltered. -/
theorem c2_bleed_warning_rule_merged :
    (addPreflightIssues []
        { failed := [], warnings := [ { rule_name := "bleed_check" } ],
          info := [] }).any
      (fun f => ruleNameHasBleed f.rule) = true := by
  rfl

/-- C2 (amended): when preflight profile results are merged, every rule whose
name contains "bleed" (case-insensitively) is excluded from the `failed` and
`info` buckets; the `warnings` bucket is merged without the bleed filter.
Formally: every finding the merge adds is either a warning-bucket finding
(severity `'warning'`), or a failed / info-bucket finding whose rule name
does not contain "bleed". -/
theorem c2_preflight_bleed_exclusion_amended (issues : List Finding)
    (pr : PreflightResult) (f : Finding)
    (hf : f ∈ addPreflightIssues issues pr) (hnew : f ∉ issues) :
    (f.ftype = "preflight_warning" ∧ f.severity = "warning") ∨
    (ruleNameHasBleed f.rule = false ∧
      ((f.ftype = "preflight_failed" ∧ f.severity = "error") ∨
       (f.ftype = "preflight_info" ∧ f.severity = "info"))) := by
  rcases addPreflightIssues_cases issues pr f hf with
    h | ⟨h1, h2, _⟩ | ⟨h1, h2, h3⟩ | ⟨h1, h2, h3⟩
  · exact absurd h hnew
  · exact Or.inl ⟨h1, h2⟩
  · exact Or.inr ⟨h1, Or.inl ⟨h2, h3⟩⟩
  · exact Or.inr ⟨h1, Or.inr ⟨h2, h3⟩⟩

/-- A merged finding arising from a bleed-free failed preflight rule. -/
def exFailedFinding : Finding :=
  { ftype := "preflight_failed", severity := "error", rule := "page_size" }

/-- A profile result with one bleed-free failed rule. -/
def exFailedProfile : PreflightResult :=
  { failed := [ { rule_name := "page_size" } ], warnings := [], info := [] }

/-- C2 witness: the amended theorem applied to a concrete merge of a
bleed-free failed rule. -/
theorem c2_amended_witness :
    (exFailedFinding.ftype = "preflight_warning" ∧
      exFailedFinding.severity = "warning") ∨
    (ruleNameHasBleed exFailedFinding.rule = false ∧
      ((exFailedFinding.ftype = "preflight_failed" ∧
        exFailedFinding.severity = "error") ∨
       (exFailedFinding.ftype = "preflight_info" ∧
        exFailedFinding.severity = "info"))) :=
  c2_preflight_bleed_exclusion_amended [] exFailedProfile exFailedFinding
    (by decide) (by decide)

/-! Claim C3. -/

/-- C3 counterexample: the claim states that a page without MediaBox fails
the whole analysis with a document-geometry error.  Instead,
`_analyze_pages` silently skips the page (`if mediabox:`) and returns a
normal pages sequence: a two-page document whose first page lacks a
MediaBox yields a one-element pages list containing only page 2, and no
failure arises anywhere. -/
theorem c3_missing_mediabox_no_error :
    (analyzePages [ {}, pageOfSizeMm 210 297 0 ]).map
        (fun p => p.page_number) = [ 2 ] ∧
    (analyzePages [ {}, pageOfSizeMm 210 297 0 ]).length = 1 := by
  constructor <;>
    simp [analyzePages, analyzePagesFrom, analyzePage, pageOfSizeMm, mmToPt]

/-- C3 (amended): a page with no MediaBox does not fail the analysis; it is
silently omitted from the pages sequence — `_analyze_pages` returns exactly
the MediaBox-bearing pages (numbered by original position), and it is total,
so no document-geometry error is ever raised from it. -/
theorem c3_missing_mediabox_page_skipped (ps : List PageBoxes) :
    (analyzePages ps).length =
      (ps.filter (fun p => p.mediaBox.isSome)).length := by
  exact analyzePagesFrom_length 1 ps

/-! Claim C9. -/

/-- C9: every exception inside a worker's per-file pipeline is caught at the
per-file boundary: `_process_single_file` is total (the embedded form of
"the exception never propagates"), failures become an `'error'`-tagged
record for the right `file_id` carrying the classification-derived message,
successes become `'complete'` records, and the worker produces exactly one
result record per dequeued job, so the other files are unaffected. -/
theorem c9_per_file_error_isolation (classify : String → String)
    (jobs : List (JobInfo × PipelineOutcome)) :
    (workerResults classify jobs).length = jobs.length ∧
    (∀ j o, (j, o) ∈ jobs →
        processSingleFile classify j o ∈ workerResults classify jobs) ∧
    (∀ j e, (processSingleFile classify j (.failure e)).rtype = "error" ∧
        (processSingleFile classify j (.failure e)).fileId = j.fileId ∧
        (processSingleFile classify j (.failure e)).error = classify e) ∧
    (∀ j o, (processSingleFile classify j o).rtype = "complete" ∨
        (processSingleFile classify j o).rtype = "error") := by
  refine ⟨List.length_map _ _, ?_, ?_, ?_⟩
  · intro j o hjo
    exact List.mem_map.mpr ⟨(j, o), hjo, rfl⟩
  · intro j e
    exact ⟨rfl, rfl, rfl⟩
  · intro j o
    cases o with
    | success pc => exact Or.inl rfl
    | failure e => exact Or.inr rfl

/-- C9 witness: the isolation theorem applied to a concrete two-job batch in
which the first job's pipeline raises. -/
theorem c9_isolation_witness :
    (workerResults (fun s => s)
        [ ({ fileId := "f1", fileName := "a.pdf" }, .failure "boom"),
          ({ fileId := "f2", fileName := "b.pdf" }, .success 3) ]).length = 2 ∧
    (processSingleFile (fun s => s) { fileId := "f1", fileName := "a.pdf" }
        (.failure "boom")).rtype = "error" ∧
    processSingleFile (fun s => s) { fileId := "f1", fileName := "a.pdf" }
        (.failure "boom") ∈
      workerResults (fun s => s)
        [ ({ fileId := "f1", fileName := "a.pdf" }, .failure "boom"),
          ({ fileId := "f2", fileName := "b.pdf" }, .success 3) ] := by
  have h := c9_per_file_error_isolation (fun s => s)
    [ ({ fileId := "f1", fileName := "a.pdf" }, .failure "boom"),
      ({ fileId := "f2", fileName := "b.pdf" }, .success 3) ]
  exact ⟨h.1, (h.2.2.1 { fileId := "f1", fileName := "a.pdf" } "boom").1,
    h.2.1 { fileId := "f1", fileName := "a.pdf" } (.failure "boom") (by decide)⟩

/-! Claim C4. -/

/-- A subset font whose rendering-engine font name carries the explicit
"(not embedded)" marker and for which the resource cross-check finds no
font-file stream. -/
def exSubsetMarkerFont : FitzFont :=
  { ext := "", basename := "ABCDEF+Foo", fontname := "Foo (not embedded)" }

/-- A standard-14 font reported with an empty extension. -/
def exStandardFont : FitzFont :=
  { ext := "", basename := "Helvetica", fontname := "Helvetica" }

/-- A subset font with no name markers and an empty extension. -/
def exPlainSubsetFont : FitzFont :=
  { ext := "", basename := "ABCDEF+Bar", fontname := "Bar" }

/-- C4 counterexample: the claim states that every subset font (base name
containing the subset tag and a plus sign) ends with `embedded == true`.
But the name-marker check at `pdf_analyzer.py:360-361` runs after the
subset override and sets `embedded = False` when the font name contains
"(not embedded)"; with no font-file stream found, the final record of a
subset font is `embedded == false`. -/
theorem c4_subset_marker_not_embedded :
    (buildFontInfo exSubsetMarkerFont false).subset = true ∧
    (buildFontInfo exSubsetMarkerFont false).embedded = false := by
  constructor <;> decide

/-- C4 (amended): standard-14 fonts always end with `embedded == true`
regardless of the raw detector signal.  A subset font ends with
`embedded == true` unless its font name carries an explicit not-embedded
marker ("(포함 안 됨)" / "(not embedded)") without an embedded marker, its
base font is not standard, and the resource cross-check finds no font-file
stream — in exactly that case the final record has `embedded == false`. -/
theorem c4_font_embedding_amended (fd : FitzFont) (hff : Bool) :
    ((buildFontInfo fd hff).is_standard = true →
        (buildFontInfo fd hff).embedded = true) ∧
    ((buildFontInfo fd hff).subset = true →
      (notEmbMarker fd.fontname = false ∨ embMarker fd.fontname = true ∨
        standardFonts.contains fd.basename = true ∨ hff = true) →
      (buildFontInfo fd hff).embedded = true) ∧
    ((buildFontInfo fd hff).subset = true → notEmbMarker fd.fontname = true →
      embMarker fd.fontname = false →
      standardFonts.contains fd.basename = false → hff = false →
      (buildFontInfo fd hff).embedded = false) := by
  cases hff <;>
    cases hS : standardFonts.contains fd.basename <;>
      cases hE : embMarker fd.fontname <;>
        cases hN : notEmbMarker fd.fontname <;>
          simp_all [buildFontInfo]

/-- C4 witness: the amended theorem applied to a standard font, a plain
subset font, and the marker corner case. -/
theorem c4_font_embedding_witness :
    (buildFontInfo exStandardFont false).embedded = true ∧
    (buildFontInfo exPlainSubsetFont false).embedded = true ∧
    (buildFontInfo exSubsetMarkerFont false).embedded = false :=
  ⟨(c4_font_embedding_amended exStandardFont false).1 (by decide),
   (c4_font_embedding_amended exPlainSubsetFont false).2.1 (by decide)
     (Or.inl (by decide)),
   (c4_font_embedding_amended exSubsetMarkerFont false).2.2 (by decide)
     (by decide) (by decide) (by decide) rfl⟩

/-! Claim C6. -/

/-- An image placed at 100 points with 100 pixels: exactly 72 DPI. -/
def exImg72 : RawImage :=
  { page := 1, pixWidth := 100, pixHeight := 100,
    placedWidthPt := 100, placedHeightPt := 100 }

/-- C6: for an image with positive placed dimensions, the DPI is
`min(pixel_width / (placed_width_pt / 72), pixel_height / (placed_height_pt / 72))`,
the category is the threshold cascade applied to that DPI, and the
`'critical'` classification is exactly the strict comparison
`dpi < min_image_dpi` — so an image at exactly the minimum threshold is not
critical, while any image strictly below it is. -/
theorem c6_dpi_categorization (cfg : DpiConfig) (img : RawImage)
    (hw : 0 < img.placedWidthPt) (hh : 0 < img.placedHeightPt) :
    (analyzeImage cfg img).dpi =
      min (img.pixWidth / (img.placedWidthPt / 72))
          (img.pixHeight / (img.placedHeightPt / 72)) ∧
    (analyzeImage cfg img).resolution_category =
      categorizeDpi cfg ((analyzeImage cfg img).dpi) ∧
    (∀ d : ℚ, categorizeDpi cfg d = "critical" ↔ d < cfg.minImageDpi) ∧
    categorizeDpi cfg cfg.minImageDpi ≠ "critical" := by
  have hpos : 0 < img.placedWidthPt ∧ 0 < img.placedHeightPt := ⟨hw, hh⟩
  have hcat : ∀ d : ℚ, categorizeDpi cfg d = "critical" ↔ d < cfg.minImageDpi := by
    intro d
    unfold categorizeDpi
    split
    · next hlt => exact iff_of_true rfl hlt
    · next hge =>
      split
      · exact iff_of_false (by decide) hge
      · split
        · exact iff_of_false (by decide) hge
        · exact iff_of_false (by decide) hge
  refine ⟨?_, ?_, hcat, ?_⟩
  · unfold analyzeImage
    rw [if_pos hpos]
  · unfold analyzeImage
    rw [if_pos hpos]
  · intro h
    exact absurd ((hcat cfg.minImageDpi).mp h) (lt_irrefl _)

/-- C6 witness: the categorization theorem applied to a concrete 72-DPI
image under the default thresholds. -/
theorem c6_dpi_witness :
    (analyzeImage defaultDpiConfig exImg72).dpi =
      min ((100 : ℚ) / ((100 : ℚ) / 72)) ((100 : ℚ) / ((100 : ℚ) / 72)) ∧
    categorizeDpi defaultDpiConfig defaultDpiConfig.minImageDpi ≠ "critical" :=
  ⟨(c6_dpi_categorization defaultDpiConfig exImg72 (by decide) (by decide)).1,
   (c6_dpi_categorization defaultDpiConfig exImg72
      (by decide) (by decide)).2.2.2⟩

/-! Claim C10. -/

/-- An image with no placement data (`img[2] = img[3] = 0`). -/
def exNoPlaceImg : RawImage :=
  { page := 1, pixWidth := 50, pixHeight := 50,
    placedWidthPt := 0, placedHeightPt := 0 }

/-- C10: an image whose placed dimensions are not both positive keeps
`dpi = 0` and the empty resolution category; the `low_res_images` filter
only admits images with `dpi > 0`; and a document whose images all lack
placement data has `low_resolution_count = 0` and therefore produces no
`low_resolution_image` finding. -/
theorem c10_no_placement_excluded (cfg : DpiConfig) (imgs : List RawImage) :
    (∀ img ∈ imgs, ¬(0 < img.placedWidthPt ∧ 0 < img.placedHeightPt) →
        (analyzeImage cfg img).dpi = 0 ∧
        (analyzeImage cfg img).resolution_category = "") ∧
    (∀ d ∈ lowResImages cfg (analyzeImages cfg imgs), 0 < d.dpi) ∧
    ((∀ img ∈ imgs, ¬(0 < img.placedWidthPt ∧ 0 < img.placedHeightPt)) →
        lowResFinding cfg (analyzeImages cfg imgs) = none) := by
  refine ⟨?_, ?_, ?_⟩
  · intro img _ hneg
    constructor <;> (unfold analyzeImage; rw [if_neg hneg])
  · intro d hd
    unfold lowResImages at hd
    rw [List.mem_filter] at hd
    have h2 := hd.2
    simp only [Bool.and_eq_true, decide_eq_true_eq] at h2
    exact h2.1
  · intro hall
    unfold lowResFinding
    have hcount : (analyzeImages cfg imgs).low_resolution_count = 0 := by
      unfold analyzeImages
      simp only [List.length_eq_zero, List.filter_eq_nil_iff]
      intro d hd
      rw [List.mem_map] at hd
      obtain ⟨img, him, rfl⟩ := hd
      have hcat : (analyzeImage cfg img).resolution_category = "" := by
        unfold analyzeImage
        rw [if_neg (hall img him)]
      rw [hcat]
      decide
    rw [hcount]
    simp

/-- C10 witness: a document whose only image lacks placement data produces
no low-resolution finding. -/
theorem c10_no_placement_witness :
    lowResFinding defaultDpiConfig
        (analyzeImages defaultDpiConfig [ exNoPlaceImg ]) = none :=
  (c10_no_placement_excluded defaultDpiConfig [ exNoPlaceImg ]).2.2 (by decide)

/-! Claim C7. -/

/-- A page number appears in `pages_without_bleed` exactly when the page
fails the sufficiency test `has_bleed ∧ min_bleed ≥ standard`. -/
theorem pagesWithoutBleed_mem (std : ℚ) (pages : List PageInfo) (n : ℕ) :
    (n ∈ (pagesWithoutBleed std pages).map Prod.fst) ↔
      ∃ p ∈ pages, p.page_number = n ∧
        ¬ (p.has_bleed = true ∧ std ≤ p.min_bleed) := by
  unfold pagesWithoutBleed
  rw [List.mem_map]
  constructor
  · rintro ⟨e, he, rfl⟩
    rw [List.mem_filterMap] at he
    obtain ⟨p, hp, hg⟩ := he
    refine ⟨p, hp, ?_⟩
    split at hg
    · split at hg
      · next hlt =>
        cases hg
        exact ⟨rfl, fun hc => absurd hc.2 (not_le.mpr hlt)⟩
      · exact absurd hg (by simp)
    · next hb =>
      cases hg
      exact ⟨rfl, fun hc => hb hc.1⟩
  · rintro ⟨p, hp, rfl, hnot⟩
    by_cases hb : p.has_bleed = true
    · have hlt : p.min_bleed < std := by
        by_contra hge
        exact hnot ⟨hb, not_lt.mp hge⟩
      exact ⟨(p.page_number, p.min_bleed),
        List.mem_filterMap.mpr ⟨p, hp, by rw [if_pos hb, if_pos hlt]⟩, rfl⟩
    · exact ⟨(p.page_number, 0),
        List.mem_filterMap.mpr ⟨p, hp, by rw [if_neg hb]⟩, rfl⟩

/-- `pages_without_bleed` is empty exactly when every page passes the
sufficiency test. -/
theorem pagesWithoutBleed_eq_nil (std : ℚ) (pages : List PageInfo) :
    pagesWithoutBleed std pages = [] ↔
      ∀ p ∈ pages, p.has_bleed = true ∧ std ≤ p.min_bleed := by
  unfold pagesWithoutBleed
  rw [List.filterMap_eq_nil_iff]
  constructor
  · intro h p hp
    have hg := h p hp
    split at hg
    · split at hg
      · exact absurd hg (by simp)
      · next hge => exact ⟨by assumption, not_lt.mp hge⟩
    · exact absurd hg (by simp)
  · intro h p hp
    obtain ⟨hb, hle⟩ := h p hp
    rw [if_pos hb, if_neg (not_lt.mpr hle)]

/-- C7: bleed sufficiency is `min_bleed ≥ standard_bleed_size`; every finding
`process_bleed_info` emits is an `insufficient_bleed` finding of severity
`'info'` whose pages are exactly the pages failing the sufficiency test
(including pages with no bleed at all); no finding is emitted when all pages
pass; and the only other place a bleed-named issue could enter the pipeline
— the preflight merge — never appends an error-severity finding whose rule
name contains "bleed". -/
theorem c7_bleed_policy (std : ℚ) (pages : List PageInfo) :
    (∀ f ∈ processBleedFindings std pages,
        f.ftype = "insufficient_bleed" ∧ f.severity = "info" ∧
        (∀ n, n ∈ f.pages ↔ ∃ p ∈ pages, p.page_number = n ∧
            ¬ (p.has_bleed = true ∧ std ≤ p.min_bleed))) ∧
    (processBleedFindings std pages = [] ↔
        ∀ p ∈ pages, p.has_bleed = true ∧ std ≤ p.min_bleed) ∧
    (∀ issues pr f, f ∈ addPreflightIssues issues pr → f ∉ issues →
        f.severity = "error" → ruleNameHasBleed f.rule = false) := by
  refine ⟨?_, ?_, ?_⟩
  · intro f hf
    unfold processBleedFindings at hf
    dsimp only at hf
    split at hf
    · exact absurd hf (by simp)
    · rw [List.mem_singleton] at hf
      subst hf
      exact ⟨rfl, rfl, fun n => pagesWithoutBleed_mem std pages n⟩
  · have hpf : processBleedFindings std pages = [] ↔
        pagesWithoutBleed std pages = [] := by
      unfold processBleedFindings
      dsimp only
      split
      · next hemp => simp [List.isEmpty_iff.mp hemp]
      · next hemp =>
        exact iff_of_false (by simp)
          (fun h => hemp (by rw [h]; rfl))
    rw [hpf, pagesWithoutBleed_eq_nil]
  · intro issues pr f hf hnew hsev
    rcases addPreflightIssues_cases issues pr f hf with
      h | ⟨_, h2, _⟩ | ⟨h1, _, _⟩ | ⟨_, _, h3⟩
    · exact absurd h hnew
    · rw [hsev] at h2
      exact absurd h2 (by decide)
    · exact h1
    · rw [hsev] at h3
      exact absurd h3 (by decide)

/-- C7 witness: the policy theorem applied to a one-page document without
bleed, whose single finding is the info-severity `insufficient_bleed`. -/
theorem c7_bleed_witness :
    exBleedFinding.ftype = "insufficient_bleed" ∧
    exBleedFinding.severity = "info" :=
  ⟨((c7_bleed_policy STANDARD_BLEED_SIZE [ exNoBleedPageInfo ]).1
      exBleedFinding (by decide)).1,
   ((c7_bleed_policy STANDARD_BLEED_SIZE [ exNoBleedPageInfo ]).1
      exBleedFinding (by decide)).2.1⟩

/-! Claim C5. -/

/-- `uniqKeys` preserves membership. -/
theorem mem_uniqKeys (l : List (ℤ × ℤ)) (k : ℤ × ℤ) :
    k ∈ uniqKeys l ↔ k ∈ l := by
  induction l with
  | nil => simp [uniqKeys]
  | cons a rest ih =>
    simp only [uniqKeys, List.mem_cons, List.mem_filter, decide_eq_true_eq]
    constructor
    · rintro (rfl | ⟨hk, _⟩)
      · exact Or.inl rfl
      · exact Or.inr (ih.mp hk)
    · rintro (rfl | hk)
      · exact Or.inl rfl
      · by_cases hak : k = a
        · exact Or.inl hak
        · exact Or.inr ⟨ih.mpr hk, hak⟩

/-- A group of `groupPages` is exactly a first-seen key paired with the
document-order list of pages having that key. -/
theorem mem_groupPages (pages : List PageInfo) (g : (ℤ × ℤ) × List PageInfo) :
    g ∈ groupPages pages ↔
      g.1 ∈ pages.map sizeKey ∧
      g.2 = pages.filter (fun p => sizeKey p == g.1) := by
  unfold groupPages
  rw [List.mem_map]
  constructor
  · rintro ⟨k, hk, rfl⟩
    exact ⟨(mem_uniqKeys _ _).mp hk, rfl⟩
  · rintro ⟨hk, hg⟩
    obtain ⟨k, l⟩ := g
    exact ⟨k, (mem_uniqKeys _ _).mpr hk, by rw [← hg]⟩

/-- The running maximum dominates the start value and every scanned value. -/
theorem pickMaxAux_le (b : (ℤ × ℤ) × List PageInfo)
    (l : List ((ℤ × ℤ) × List PageInfo)) :
    b.2.length ≤ (pickMaxAux b l).2.length ∧
    ∀ g ∈ l, g.2.length ≤ (pickMaxAux b l).2.length := by
  induction l generalizing b with
  | nil => exact ⟨le_refl _, by simp⟩
  | cons g rest ih =>
    unfold pickMaxAux
    split
    · next hlt =>
      obtain ⟨h1, h2⟩ := ih g
      refine ⟨le_trans (le_of_lt hlt) h1, ?_⟩
      intro g2 hg2
      rcases List.mem_cons.mp hg2 with rfl | hg2
      · exact h1
      · exact h2 g2 hg2
    · next hge =>
      obtain ⟨h1, h2⟩ := ih b
      refine ⟨h1, ?_⟩
      intro g2 hg2
      rcases List.mem_cons.mp hg2 with rfl | hg2
      · exact le_trans (not_lt.mp hge) h1
      · exact h2 g2 hg2

/-- The running maximum is the start value or a scanned value. -/
theorem pickMaxAux_mem (b : (ℤ × ℤ) × List PageInfo)
    (l : List ((ℤ × ℤ) × List PageInfo)) :
    pickMaxAux b l = b ∨ pickMaxAux b l ∈ l := by
  induction l generalizing b with
  | nil => exact Or.inl rfl
  | cons g rest ih =>
    unfold pickMaxAux
    split
    · rcases ih g with h | h
      · exact Or.inr (by rw [h]; exact List.mem_cons_self _ _)
      · exact Or.inr (List.mem_cons_of_mem _ h)
    · rcases ih b with h | h
      · exact Or.inl h
      · exact Or.inr (List.mem_cons_of_mem _ h)

/-- The baseline group returned by `pickMax` belongs to the group list and
has maximal page count. -/
theorem pickMax_spec (l : List ((ℤ × ℤ) × List PageInfo))
    (c : (ℤ × ℤ) × List PageInfo) (hc : pickMax l = some c) :
    c ∈ l ∧ ∀ g ∈ l, g.2.length ≤ c.2.length := by
  cases l with
  | nil => cases hc
  | cons g rest =>
    unfold pickMax at hc
    cases hc
    obtain ⟨h1, h2⟩ := pickMaxAux_le g rest
    constructor
    · rcases pickMaxAux_mem g rest with h | h
      · rw [h]; exact List.mem_cons_self _ _
      · exact List.mem_cons_of_mem _ h
    · intro g2 hg2
      rcases List.mem_cons.mp hg2 with rfl | hg2
      · exact h1
      · exact h2 g2 hg2

/-- The deviating-page collection contains exactly the pages whose rounded
display size differs from the baseline key. -/
theorem mem_inconsistentPages (pages : List PageInfo)
    (c : (ℤ × ℤ) × List PageInfo) (hc : pickMax (groupPages pages) = some c)
    (q : PageInfo) :
    q ∈ inconsistentPages pages ↔ q ∈ pages ∧ sizeKey q ≠ c.1 := by
  unfold inconsistentPages
  rw [hc]
  rw [List.mem_flatten]
  constructor
  · rintro ⟨l, hl, hq⟩
    rw [List.mem_map] at hl
    obtain ⟨g, hg, rfl⟩ := hl
    rw [List.mem_filter, decide_eq_true_eq] at hg
    obtain ⟨hg, hne⟩ := hg
    have hgch := (mem_groupPages pages g).mp hg
    rw [hgch.2, List.mem_filter] at hq
    have hkey : sizeKey q = g.1 := by
      have := hq.2
      simpa using this
    exact ⟨hq.1, hkey ▸ hne⟩
  · rintro ⟨hq, hne⟩
    refine ⟨pages.filter (fun p => sizeKey p == sizeKey q), ?_, ?_⟩
    · rw [List.mem_map]
      refine ⟨(sizeKey q, pages.filter (fun p => sizeKey p == sizeKey q)),
        ?_, rfl⟩
      rw [List.mem_filter, decide_eq_true_eq]
      refine ⟨(mem_groupPages pages _).mpr ⟨?_, rfl⟩, hne⟩
      exact List.mem_map.mpr ⟨q, hq, rfl⟩
    · rw [List.mem_filter]
      exact ⟨hq, by simp⟩

/-- `analyzePage` swaps the display dimensions exactly for rotations 90 and
270. -/
theorem analyzePage_display (pn : ℕ) (pb : PageBoxes) (pi : PageInfo)
    (h : analyzePage pn pb = some pi) :
    pi.display_width_mm =
      (if pb.rotate = 90 ∨ pb.rotate = 270 then pi.height_mm else pi.width_mm) ∧
    pi.display_height_mm =
      (if pb.rotate = 90 ∨ pb.rotate = 270 then pi.width_mm else pi.height_mm) := by
  unfold analyzePage at h
  cases hm : pb.mediaBox with
  | none => rw [hm] at h; exact absurd h (by simp)
  | some mb =>
    rw [hm] at h
    dsimp only at h
    cases htb : pb.trimBox.orElse fun _ => pb.cropBox.orElse fun _ => some mb with
    | none =>
      rw [htb] at h
      cases hbb : pb.bleedBox.orElse fun _ => pb.cropBox.orElse fun _ => some mb <;>
        rw [hbb] at h <;> cases h <;> exact ⟨rfl, rfl⟩
    | some tb =>
      rw [htb] at h
      cases hbb : pb.bleedBox.orElse fun _ => pb.cropBox.orElse fun _ => some mb with
      | none =>
        rw [hbb] at h
        cases h
        exact ⟨rfl, rfl⟩
      | some bb =>
        rw [hbb] at h
        dsimp only at h
        split at h <;> cases h <;> exact ⟨rfl, rfl⟩

/-- C5: `_check_issues` groups pages by rounded rotation-aware display size
(`analyzePage` swaps the dimensions for rotations 90 / 270), the baseline is
a group of maximal size, at most one `page_size_inconsistent` finding is
emitted (an `Option` in this embedding, mirroring the single `append`), its
severity is `'warning'`, its affected pages are exactly the page numbers of
pages outside the baseline group — so a rotated page whose display size
equals the baseline size is never flagged — and no finding is emitted when
every page matches the baseline key. -/
theorem c5_page_size_consistency (pages : List PageInfo)
    (c : (ℤ × ℤ) × List PageInfo)
    (hc : pickMax (groupPages pages) = some c) :
    (c ∈ groupPages pages ∧
      ∀ g ∈ groupPages pages, g.2.length ≤ c.2.length) ∧
    (pageSizeFinding pages = none ↔ ∀ p ∈ pages, sizeKey p = c.1) ∧
    (∀ f, pageSizeFinding pages = some f →
        f.ftype = "page_size_inconsistent" ∧ f.severity = "warning" ∧
        (∀ n, n ∈ f.pages ↔
          ∃ p ∈ pages, p.page_number = n ∧ sizeKey p ≠ c.1)) ∧
    (∀ pn pb pi, analyzePage pn pb = some pi →
        (pb.rotate = 90 ∨ pb.rotate = 270) →
        pi.display_width_mm = pi.height_mm ∧
        pi.display_height_mm = pi.width_mm) := by
  have hne : pages.isEmpty = false := by
    cases hp : pages with
    | nil => rw [hp] at hc; cases hc
    | cons a rest => rfl
  have hinc : ∀ q, q ∈ inconsistentPages pages ↔
      q ∈ pages ∧ sizeKey q ≠ c.1 := fun q => mem_inconsistentPages pages c hc q
  have hps : pageSizeFinding pages =
      (if (inconsistentPages pages).isEmpty = true then none
       else some { ftype := "page_size_inconsistent", severity := "warning",
                   pages := (inconsistentPages pages).map
                     (fun p => p.page_number) }) := by
    unfold pageSizeFinding
    rw [hne]
    rfl
  refine ⟨pickMax_spec _ c hc, ?_, ?_, ?_⟩
  · rw [hps]
    split
    · next hfnd =>
      refine iff_of_true rfl ?_
      intro p hp
      by_contra hnk
      have : p ∈ inconsistentPages pages := (hinc p).mpr ⟨hp, hnk⟩
      rw [List.isEmpty_iff.mp hfnd] at this
      cases this
    · next hfnd =>
      refine iff_of_false (by simp) ?_
      intro hall
      have : inconsistentPages pages = [] := by
        rw [List.eq_nil_iff_forall_not_mem]
        intro q hq
        exact ((hinc q).mp hq).2 (hall q ((hinc q).mp hq).1)
      exact hfnd (by rw [this]; rfl)
  · intro f hf
    rw [hps] at hf
    split at hf
    · cases hf
    · rw [Option.some_inj] at hf
      subst hf
      refine ⟨rfl, rfl, ?_⟩
      intro n
      simp only [List.mem_map]
      constructor
      · rintro ⟨q, hq, rfl⟩
        obtain ⟨hq1, hq2⟩ := (hinc q).mp hq
        exact ⟨q, hq1, rfl, hq2⟩
      · rintro ⟨p, hp, rfl, hnk⟩
        exact ⟨p, (hinc p).mpr ⟨hp, hnk⟩, rfl⟩
  · intro pn pb pi h hrot
    obtain ⟨h1, h2⟩ := analyzePage_display pn pb pi h
    rw [if_pos hrot] at h1
    rw [if_pos hrot] at h2
    exact ⟨h1, h2⟩

/-- A portrait A4 page record with the given page number. -/
def exPageA (n : ℕ) : PageInfo :=
  { page_number := n, width_pt := 595, height_pt := 842, width_mm := 210,
    height_mm := 297, display_width_mm := 210, display_height_mm := 297,
    rotation := 0 }

/-- A landscape A4 page rotated 90°: its display size matches portrait A4. -/
def exPageRot : PageInfo :=
  { page_number := 3, width_pt := 842, height_pt := 595, width_mm := 297,
    height_mm := 210, display_width_mm := 210, display_height_mm := 297,
    rotation := 90 }

/-- An A3 landscape page, the only deviating size. -/
def exPageWide : PageInfo :=
  { page_number := 4, width_pt := 1191, height_pt := 842, width_mm := 420,
    height_mm := 297, display_width_mm := 420, display_height_mm := 297,
    rotation := 0 }

/-- The spec's grouping example: two portrait A4 pages, one rotated A4 page
and one A3 page. -/
def exMixedPages : List PageInfo :=
  [ exPageA 1, exPageA 2, exPageRot, exPageWide ]

/-- The baseline group of `exMixedPages`: the rotated page joins it. -/
def exBaseGroup : (ℤ × ℤ) × List PageInfo :=
  ((210, 297), [ exPageA 1, exPageA 2, exPageRot ])

/-- The single finding for `exMixedPages`: only page 4 deviates. -/
def exSizeFinding : Finding :=
  { ftype := "page_size_inconsistent", severity := "warning", pages := [4] }

/-- C5 witness: the consistency theorem applied to the spec's example; the
rotated page is part of the baseline group and the finding flags page 4. -/
theorem c5_page_size_witness :
    exSizeFinding.ftype = "page_size_inconsistent" ∧
    exSizeFinding.severity = "warning" ∧
    exBaseGroup ∈ groupPages exMixedPages := by
  have h210 : pyRound (210 : ℚ) = 210 := by norm_num [pyRound]
  have h297 : pyRound (297 : ℚ) = 297 := by norm_num [pyRound]
  have h420 : pyRound (420 : ℚ) = 420 := by norm_num [pyRound]
  have hc : pickMax (groupPages exMixedPages) = some exBaseGroup := by
    simp [pickMax, pickMaxAux, groupPages, uniqKeys, sizeKey, exMixedPages,
      exPageA, exPageRot, exPageWide, exBaseGroup, h210, h297, h420]
  have h := c5_page_size_consistency exMixedPages exBaseGroup hc
  have hincEq : inconsistentPages exMixedPages = [ exPageWide ] := by
    unfold inconsistentPages
    rw [hc]
    simp [groupPages, uniqKeys, sizeKey, exMixedPages, exPageA, exPageRot,
      exPageWide, exBaseGroup, h210, h297, h420]
  have hne2 : exMixedPages.isEmpty = false := rfl
  have hf : pageSizeFinding exMixedPages = some exSizeFinding := by
    simp [pageSizeFinding, hne2, hincEq, exPageWide, exSizeFinding]
  exact ⟨(h.2.2.1 exSizeFinding hf).1, (h.2.2.1 exSizeFinding hf).2.1, h.1.1⟩

/-! Claim C8. -/

/-- Page numbers produced by the enumeration are at least the start value. -/
theorem enumPagesFrom_mem_ge (n : ℕ) (pages : List OverprintPage)
    (e : ℕ × OverprintPage) (he : e ∈ enumPagesFrom n pages) : n ≤ e.1 := by
  induction pages generalizing n with
  | nil => cases he
  | cons p rest ih =>
    rcases List.mem_cons.mp he with rfl | he2
    · exact le_refl _
    · exact le_trans (Nat.le_succ n) (ih (n + 1) he2)

/-- Enumerated page numbers are distinct: two entries with the same number
are the same entry. -/
theorem enumPagesFrom_unique (n : ℕ) (pages : List OverprintPage)
    (e1 e2 : ℕ × OverprintPage) (h1 : e1 ∈ enumPagesFrom n pages)
    (h2 : e2 ∈ enumPagesFrom n pages) (heq : e1.1 = e2.1) : e1 = e2 := by
  induction pages generalizing n with
  | nil => cases h1
  | cons p rest ih =>
    rcases List.mem_cons.mp h1 with rfl | h1'
    · rcases List.mem_cons.mp h2 with rfl | h2'
      · rfl
      · have h3 := enumPagesFrom_mem_ge (n + 1) rest e2 h2'
        have heq' : n = e2.1 := heq
        exact absurd h3 (by omega)
    · rcases List.mem_cons.mp h2 with rfl | h2'
      · have h3 := enumPagesFrom_mem_ge (n + 1) rest e1 h1'
        have heq' : e1.1 = n := heq
        exact absurd h3 (by omega)
      · exact ih (n + 1) h1' h2'

/-- Membership in a page-number list produced by filtering the enumeration
with a per-page boolean condition. -/
theorem mem_pageFilterMap (f : OverprintPage → Bool)
    (pages : List OverprintPage) (n : ℕ) :
    (n ∈ (enumPages pages).filterMap
        (fun e => if f e.2 then some e.1 else none)) ↔
      ∃ e ∈ enumPages pages, e.1 = n ∧ f e.2 = true := by
  rw [List.mem_filterMap]
  constructor
  · rintro ⟨e, he, hg⟩
    by_cases hc : f e.2 = true
    · rw [if_pos hc] at hg
      cases hg
      exact ⟨e, he, rfl, hc⟩
    · rw [if_neg hc] at hg
      cases hg
  · rintro ⟨e, he, rfl, hc⟩
    exact ⟨e, he, by rw [if_pos hc]⟩

/-- `white_overprint_pages` membership. -/
theorem mem_whitePages (pages : List OverprintPage) (n : ℕ) :
    n ∈ whitePages pages ↔ ∃ e ∈ enumPages pages, e.1 = n ∧
      (tokenDetect e.2.content && whiteMatch e.2.content) = true := by
  unfold whitePages
  exact mem_pageFilterMap
    (fun p => tokenDetect p.content && whiteMatch p.content) pages n

/-- `k_only_overprint_pages` membership. -/
theorem mem_kOnlyPages (pages : List OverprintPage) (n : ℕ) :
    n ∈ kOnlyPages pages ↔ ∃ e ∈ enumPages pages, e.1 = n ∧
      (tokenDetect e.2.content && !whiteMatch e.2.content &&
        kOnlyMatch e.2.content) = true := by
  unfold kOnlyPages
  exact mem_pageFilterMap
    (fun p => tokenDetect p.content && !whiteMatch p.content &&
      kOnlyMatch p.content) pages n

/-- A page is never in both the white and the K-only list: the K-only branch
is an `elif`. -/
theorem white_kOnly_disjoint (pages : List OverprintPage) (n : ℕ)
    (hw : n ∈ whitePages pages) (hk : n ∈ kOnlyPages pages) : False := by
  obtain ⟨e1, he1, heq1, hc1⟩ := (mem_whitePages pages n).mp hw
  obtain ⟨e2, he2, heq2, hc2⟩ := (mem_kOnlyPages pages n).mp hk
  have hee : e1 = e2 :=
    enumPagesFrom_unique 1 pages e1 e2 he1 he2 (by rw [heq1, heq2])
  subst hee
  simp only [Bool.and_eq_true, Bool.not_eq_true'] at hc1 hc2
  rw [hc1.2] at hc2
  exact absurd hc2.1.2 (by decide)

/-- `other_overprint_pages` membership. -/
theorem mem_otherPages (pages : List OverprintPage) (n : ℕ) :
    n ∈ otherOverprintPages pages ↔
      n ∈ allOverprintPages pages ∧
      n ∉ whitePages pages ∧ n ∉ kOnlyPages pages := by
  unfold otherOverprintPages
  rw [List.mem_filter]
  constructor
  · rintro ⟨h1, h2⟩
    simp at h2
    exact ⟨h1, h2.1, h2.2⟩
  · rintro ⟨h1, h2, h3⟩
    refine ⟨h1, ?_⟩
    simp [h2, h3]

/-- Findings in a conditional singleton. -/
theorem mem_ite_singleton {b : Bool} {x f : Finding}
    (h : f ∈ (if b = true then [x] else ([] : List Finding))) : f = x := by
  split at h
  · simpa using h
  · cases h

/-- A non-empty witness makes `isEmpty` false. -/
theorem isEmpty_false_of_mem {α : Type} {l : List α} {a : α} (h : a ∈ l) :
    l.isEmpty = false := by
  cases l with
  | nil => cases h
  | cons x rest => rfl

/-- C8 counterexample: the claim states that a page whose content carries a
`0 0 0 0 k` fill before the overprint operator produces an error-severity
finding.  On a page using the lowercase operator `1 op`, overprint is
detected (`\s1\s+op\s`), the fill precedes the operator — the spec-side
predicate `specWhiteOverprint` holds — yet the classification regexes only
match the uppercase `1 OP`, so the page is classified "other" and the only
finding emitted is the severity-`'warning'` `overprint_detected`. -/
theorem c8_lowercase_op_white_not_error :
    specWhiteOverprint [ "0", "0", "0", "0", "k", "1", "op" ] = true ∧
    (overprintFindings
        [ { content := [ "0", "0", "0", "0", "k", "1", "op" ] } ]).1 = [] ∧
    (overprintFindings
        [ { content := [ "0", "0", "0", "0", "k", "1", "op" ] } ]).2 =
      [ { ftype := "overprint_detected", severity := "warning",
          pages := [1] } ] :=
  ⟨rfl, rfl, rfl⟩

/-- C8 (amended): classification by the preceding fill-color operator applies
to the uppercase `1 OP` operator (the only form the classification regexes
match).  Every page matching `0 0 0 0 k/K ... 1 OP` lands in the
error-severity `white_overprint_detected` finding; every detected page
matching `0 0 0 1 k/K ... 1 OP` but not the white pattern lands in the
info-severity `k_overprint_detected` finding and in no finding of any other
severity; every other page with detected overprint (including pages whose
overprint appears only as `1 op` / `1 OPM` or in ExtGState) lands in the
warning-severity `overprint_detected` finding. -/
theorem c8_overprint_classification_amended (pages : List OverprintPage) :
    (∀ n, n ∈ whitePages pages →
      ∃ f ∈ (overprintFindings pages).1,
        f.ftype = "white_overprint_detected" ∧ f.severity = "error" ∧
        n ∈ f.pages) ∧
    (∀ n, n ∈ kOnlyPages pages →
      (∃ f ∈ (overprintFindings pages).2,
        f.ftype = "k_overprint_detected" ∧ f.severity = "info" ∧
        n ∈ f.pages) ∧
      (∀ f, (f ∈ (overprintFindings pages).1 ∨ f ∈ (overprintFindings pages).2) →
        f.severity ≠ "info" → n ∉ f.pages)) ∧
    (∀ n, n ∈ otherOverprintPages pages →
      ∃ f ∈ (overprintFindings pages).2,
        f.ftype = "overprint_detected" ∧ f.severity = "warning" ∧
        n ∈ f.pages) := by
  refine ⟨?_, ?_, ?_⟩
  · intro n hn
    refine ⟨{ ftype := "white_overprint_detected", severity := "error",
              pages := whitePages pages }, ?_, rfl, rfl, hn⟩
    unfold overprintFindings
    dsimp only
    rw [isEmpty_false_of_mem hn]
    simp
  · intro n hn
    constructor
    · refine ⟨{ ftype := "k_overprint_detected", severity := "info",
                pages := kOnlyPages pages }, ?_, rfl, rfl, hn⟩
      unfold overprintFindings
      dsimp only
      rw [isEmpty_false_of_mem hn]
      simp
    · intro f hf hsev hmem
      unfold overprintFindings at hf
      dsimp only at hf
      rcases hf with hf | hf
      · have hfx := mem_ite_singleton hf
        subst hfx
        exact white_kOnly_disjoint pages n hmem hn
      · rcases List.mem_append.mp hf with hf2 | hf2
        · have hfx := mem_ite_singleton hf2
          subst hfx
          exact hsev rfl
        · have hfx := mem_ite_singleton hf2
          subst hfx
          exact ((mem_otherPages pages n).mp hmem).2.2 hn
  · intro n hn
    refine ⟨{ ftype := "overprint_detected", severity := "warning",
              pages := otherOverprintPages pages }, ?_, rfl, rfl, hn⟩
    unfold overprintFindings
    dsimp only
    rw [isEmpty_false_of_mem hn]
    simp

/-- A page with a white fill before an uppercase overprint operator. -/
def exWhitePage : OverprintPage :=
  { content := [ "0", "0", "0", "0", "K", "1", "OP" ] }

/-- A page with a K-100% fill before an uppercase overprint operator. -/
def exKPage : OverprintPage :=
  { content := [ "0", "0", "0", "1", "k", "1", "OP" ] }

/-- A page with only a lowercase overprint operator. -/
def exOtherPage : OverprintPage :=
  { content := [ "1", "op" ] }

/-- A three-page document with one page of each overprint class. -/
def exOpDoc : List OverprintPage := [ exWhitePage, exKPage, exOtherPage ]

/-- C8 witness: the amended classification applied to a concrete document
with one white, one K-only and one other overprint page. -/
theorem c8_overprint_witness :
    (∃ f ∈ (overprintFindings exOpDoc).1,
        f.ftype = "white_overprint_detected" ∧ f.severity = "error" ∧
        1 ∈ f.pages) ∧
    (∃ f ∈ (overprintFindings exOpDoc).2,
        f.ftype = "k_overprint_detected" ∧ f.severity = "info" ∧
        2 ∈ f.pages) ∧
    (∃ f ∈ (overprintFindings exOpDoc).2,
        f.ftype = "overprint_detected" ∧ f.severity = "warning" ∧
        3 ∈ f.pages) :=
  ⟨(c8_overprint_classification_amended exOpDoc).1 1 (by decide),
   ((c8_overprint_classification_amended exOpDoc).2.1 2 (by decide)).1,
   (c8_overprint_classification_amended exOpDoc).2.2 3 (by decide)⟩

end PdfCheck
